import Mathlib

/-!
Verification of the ProBowler biomechanics core
(`model/EnhancedCricketBiomechanicsExtractor.py`, `model/analyze.py`).

Shallow embedding conventions:
* A landmark-coordinate cell of the input DataFrame is `Cell`:
  `missing` models a column absent from the DataFrame (indexing it with
  `row["COL"]` raises `KeyError`), `nan` models a present-but-NaN float,
  `val q` a real coordinate (floats are embedded as rationals `ℚ`).
* A `Frame` is one DataFrame row: its `frame` column value (`idx : ℕ`)
  plus its cells, keyed by the fixed landmark-column taxonomy `Col`.
* Angle values (degrees) live in `ℝ`; NaN results are `Option.none`.
* Python exceptions are `Except String`, carrying the exception kind.
-/

namespace ProBowler

/-- One landmark-coordinate cell of a DataFrame row. -/
inductive Cell : Type
  | missing : Cell
  | nan : Cell
  | val : ℚ → Cell
  deriving DecidableEq

/-- The landmark-coordinate columns the extractor reads
(the fixed Mediapipe-derived taxonomy, restricted to the columns used). -/
inductive Col : Type
  | RIGHT_ANKLE_x | RIGHT_ANKLE_y
  | RIGHT_HIP_x | RIGHT_HIP_y
  | RIGHT_KNEE_x | RIGHT_KNEE_y
  | RIGHT_SHOULDER_x | RIGHT_SHOULDER_y
  | RIGHT_ELBOW_x | RIGHT_ELBOW_y
  | RIGHT_WRIST_x | RIGHT_WRIST_y
  | RIGHT_FOOT_INDEX_x | RIGHT_FOOT_INDEX_y
  | LEFT_ANKLE_x | LEFT_ANKLE_y
  | LEFT_HIP_x | LEFT_HIP_y
  | LEFT_KNEE_x | LEFT_KNEE_y
  | LEFT_SHOULDER_x | LEFT_SHOULDER_y
  | LEFT_ELBOW_x | LEFT_ELBOW_y
  | LEFT_WRIST_x | LEFT_WRIST_y
  | LEFT_FOOT_INDEX_x | LEFT_FOOT_INDEX_y
  | NOSE_x | NOSE_y
  deriving DecidableEq

/-- One row of the landmarks DataFrame: the `frame` column plus its cells. -/
structure Frame : Type where
  idx : ℕ
  cell : Col → Cell

/-- The input landmark sequence (the DataFrame, in row order). -/
abbrev LandmarkSeq : Type := List Frame

/-- `EnhancedCricketBiomechanicsExtractor.calculate_angle` (source lines 28-35).
Given three 2-D points the code forms vectors `ba`, `bc`, takes
`dot / (|ba| * |bc|)`, clips to `[-1, 1]` and applies `arccos`, converting to
degrees.  When a vector has zero length the division is `0/0`, which in numpy
yields NaN without raising; NaN propagates to the result.  We model the NaN
result as `none`. -/
noncomputable def calculate_angle (a b c : ℚ × ℚ) : Option ℝ :=
  let bax : ℚ := a.1 - b.1
  let bay : ℚ := a.2 - b.2
  let bcx : ℚ := c.1 - b.1
  let bcy : ℚ := c.2 - b.2
  if (bax = 0 ∧ bay = 0) ∨ (bcx = 0 ∧ bcy = 0) then none
  else
    some (Real.arccos (max (-1) (min 1
      (((bax * bcx + bay * bcy : ℚ) : ℝ) /
        (Real.sqrt ((bax ^ 2 + bay ^ 2 : ℚ) : ℝ) *
          Real.sqrt ((bcx ^ 2 + bcy ^ 2 : ℚ) : ℝ))))) * 180 / Real.pi)

/-- `row.get(col, np.nan)` — a missing column yields the default NaN, a stored
NaN stays NaN; both are `none`. -/
def rowGetD (f : Frame) (c : Col) : Option ℚ :=
  match f.cell c with
  | .missing => none
  | .nan => none
  | .val q => some q

/-- The front-ankle vertical coordinate read per frame
(`row.get("RIGHT_ANKLE_y", np.nan)`, source line 53). -/
def ankleY (f : Frame) : Option ℚ := rowGetD f Col.RIGHT_ANKLE_y

/-- Positions (with their ankle values) of the frames whose front-ankle
coordinate is defined, starting the position count at `k`. -/
def candAux : ℕ → List Frame → List (ℕ × ℚ)
  | _, [] => []
  | k, f :: fs =>
    match ankleY f with
    | some v => (k, v) :: candAux (k + 1) fs
    | none => candAux (k + 1) fs

/-- `np.where(valid_indices)[0]` paired with the valid ankle values
(source lines 69-74): the defined-ankle positions in order. -/
def candidates (df : LandmarkSeq) : List (ℕ × ℚ) := candAux 0 df

/-- First occurrence of the maximum value (the `np.argmax` rule): fold that
replaces the current best only on a strictly larger value. -/
def firstMax {α : Type} [LinearOrder α] (p : ℕ × α) (l : List (ℕ × α)) : ℕ × α :=
  l.foldl (fun best q => if best.2 < q.2 then q else best) p

/-- First occurrence of the minimum value (the `np.argmin` rule). -/
def firstMin {α : Type} [LinearOrder α] (p : ℕ × α) (l : List (ℕ × α)) : ℕ × α :=
  l.foldl (fun best q => if q.2 < best.2 then q else best) p

/-- Out-of-range row used only to make positional indexing total. -/
def defaultFrame : Frame := ⟨0, fun _ => Cell.missing⟩

/-- `self.df.iloc[i]['frame']`: the `frame` value of the row at position `i`. -/
def frameAt (df : LandmarkSeq) (i : ℕ) : ℕ := (df.getD i defaultFrame).idx

/-- `detect_front_foot_contact` (source lines 37-91), returning the pair
(FFC frame value, ball-release frame value).  With at least one defined
front-ankle coordinate, FFC is the first-maximum ankle position and the
release offset is `min(8, len(df) - ffc_idx - 1)` (collapsing to FFC when the
offset is 0).  Otherwise the fallback takes the middle row — which raises
`IndexError` (`self.df.iloc[mid_frame]`) when the DataFrame is empty — and
release at `min(mid + 5, len(df) - 1)`. -/
def detect_front_foot_contact (df : LandmarkSeq) : Except String (ℕ × ℕ) :=
  match candidates df with
  | [] =>
    if df.isEmpty then .error "IndexError"
    else
      let mid := df.length / 2
      .ok (frameAt df mid, frameAt df (min (mid + 5) (df.length - 1)))
  | c :: cs =>
    let i := (firstMax c cs).1
    let off := min 8 (df.length - i - 1)
    let ffc := frameAt df i
    .ok (ffc, if 0 < off then frameAt df (i + off) else ffc)

/-- `row["COL"]` on a DataFrame row: a missing column raises `KeyError`; a
present cell yields its float, NaN included (`none`). -/
def rowGet (f : Frame) (c : Col) : Except String (Option ℚ) :=
  match f.cell c with
  | .missing => .error "KeyError"
  | .nan => .ok none
  | .val q => .ok (some q)

/-- `calculate_angle` lifted to NaN-able coordinates: any NaN input coordinate
propagates to a NaN (undefined) result, exactly as numpy arithmetic does. -/
noncomputable def angleOpt (ax ay bx b2 cx cy : Option ℚ) : Option ℝ :=
  match ax, ay, bx, b2, cx, cy with
  | some a1, some a2, some b1, some b3, some c1, some c2 =>
    calculate_angle (a1, a2) (b1, b3) (c1, c2)
  | _, _, _, _, _, _ => none

/-- One `calculate_angle` call inside the per-frame `try` block: six column
reads (each can raise `KeyError`) followed by the NaN-aware angle. -/
noncomputable def angLk (f : Frame) (c1 c2 c3 c4 c5 c6 : Col) :
    Except String (Option ℝ) := do
  let ax ← rowGet f c1
  let ay ← rowGet f c2
  let bx ← rowGet f c3
  let b2 ← rowGet f c4
  let cx ← rowGet f c5
  let cy ← rowGet f c6
  pure (angleOpt ax ay bx b2 cx cy)

/-- The feature labels appearing in the final report (fixed catalog plus the
conditional phase rows). -/
inductive FeatureName : Type
  | elbowAngle | frontKneeAtFFC | frontKneeMaxFlexion | frontKneeMaxExtension
  | kneeAngleDeviation | backKneeAtBFC | backKneeMaxFlexion | backKneeMaxExtension
  | backKneeDeviation | backKneeAngle
  | trunkLeanVal | hipShoulderSeparation | shoulderAlignment | bowlingArmAngle
  | nonBowlingArmAngle | headPosition | pelvisRotation | frontAnkleAngle
  | backAnkleAngle | spineAngle
  deriving DecidableEq

/-- One per-frame `AngleFeatureRecord` (the dict built at source lines
205-223 / 229-247): the thirteen feature columns plus the event flags. -/
structure Record : Type where
  frame : ℕ
  is_ball_release : Bool
  is_ffc : Bool
  elbowAngle : Option ℝ
  frontKneeAngle : Option ℝ
  backKneeAngle : Option ℝ
  trunkLeanVal : Option ℝ
  hipShoulderSeparation : Option ℝ
  shoulderAlignment : Option ℝ
  bowlingArmAngle : Option ℝ
  nonBowlingArmAngle : Option ℝ
  headPosition : Option ℝ
  pelvisRotation : Option ℝ
  frontAnkleAngle : Option ℝ
  backAnkleAngle : Option ℝ
  spineAngle : Option ℝ

/-- The all-NaN record appended by the per-frame `except` handler
(source lines 229-247); both event flags are reset to `False` there. -/
def nanRec (f : Frame) : Record :=
  ⟨f.idx, false, false, none, none, none, none, none, none, none, none, none,
    none, none, none, none⟩

/-- The remainder of the per-frame `try` block after the three knee/elbow
angles (source lines 139-223): the ten other features and the record itself.
Any missing column raises; a raise anywhere in the block has the same effect,
so the reads are grouped first. -/
noncomputable def restFeatures (ffc rel : ℕ) (f : Frame) (fk elbow bk : Option ℝ) :
    Except String Record := do
  let lsx ← rowGet f Col.LEFT_SHOULDER_x
  let lsy ← rowGet f Col.LEFT_SHOULDER_y
  let rsx ← rowGet f Col.RIGHT_SHOULDER_x
  let rsy ← rowGet f Col.RIGHT_SHOULDER_y
  let rex ← rowGet f Col.RIGHT_ELBOW_x
  let rey ← rowGet f Col.RIGHT_ELBOW_y
  let rwx ← rowGet f Col.RIGHT_WRIST_x
  let rwy ← rowGet f Col.RIGHT_WRIST_y
  let rhx ← rowGet f Col.RIGHT_HIP_x
  let rhy ← rowGet f Col.RIGHT_HIP_y
  let rkx ← rowGet f Col.RIGHT_KNEE_x
  let rky ← rowGet f Col.RIGHT_KNEE_y
  let rax ← rowGet f Col.RIGHT_ANKLE_x
  let ray2 ← rowGet f Col.RIGHT_ANKLE_y
  let rfx ← rowGet f Col.RIGHT_FOOT_INDEX_x
  let rfy ← rowGet f Col.RIGHT_FOOT_INDEX_y
  let lhx ← rowGet f Col.LEFT_HIP_x
  let lhy ← rowGet f Col.LEFT_HIP_y
  let lkx ← rowGet f Col.LEFT_KNEE_x
  let lky ← rowGet f Col.LEFT_KNEE_y
  let lax ← rowGet f Col.LEFT_ANKLE_x
  let lay ← rowGet f Col.LEFT_ANKLE_y
  let lfx ← rowGet f Col.LEFT_FOOT_INDEX_x
  let lfy ← rowGet f Col.LEFT_FOOT_INDEX_y
  let lex ← rowGet f Col.LEFT_ELBOW_x
  let ley ← rowGet f Col.LEFT_ELBOW_y
  let lwx ← rowGet f Col.LEFT_WRIST_x
  let lwy ← rowGet f Col.LEFT_WRIST_y
  let nx ← rowGet f Col.NOSE_x
  let ny ← rowGet f Col.NOSE_y
  let midhx := Option.map₂ (fun u v => (u + v) / 2) lhx rhx
  let midhy := Option.map₂ (fun u v => (u + v) / 2) lhy rhy
  let midsx := Option.map₂ (fun u v => (u + v) / 2) lsx rsx
  let midsy := Option.map₂ (fun u v => (u + v) / 2) lsy rsy
  pure
    { frame := f.idx
      is_ball_release := decide (f.idx = rel)
      is_ffc := decide (f.idx = ffc)
      elbowAngle := elbow
      frontKneeAngle := fk
      backKneeAngle := bk
      trunkLeanVal := angleOpt lsx lsy rhx rhy rkx rky
      hipShoulderSeparation := angleOpt lhx lhy rsx rsy rhx rhy
      shoulderAlignment :=
        (Option.map₂ (fun l r => |l - r| * (572958 / 10000 : ℚ)) lsy rsy).map
          (fun q => (q : ℝ))
      bowlingArmAngle := angleOpt rsx rsy rex rey rwx rwy
      nonBowlingArmAngle := angleOpt lsx lsy lex ley lwx lwy
      headPosition := angleOpt lsx lsy nx ny rsx rsy
      pelvisRotation := angleOpt lhx lhy rhx rhy (rhx.map (fun u => u + 10)) rhy
      frontAnkleAngle := angleOpt rkx rky rax ray2 rfx rfy
      backAnkleAngle := angleOpt lkx lky lax lay lfx lfy
      spineAngle := angleOpt midhx midhy midsx midsy (midsx.map (fun u => u + 10)) midsy }

/-- One iteration of the per-frame loop (source lines 114-247): the `try`
block computes the front knee angle (appending it to `front_knee_angles`),
the elbow angle, the back knee angle (appending it to `back_knee_angles`),
then the remaining features; the `except` handler appends an all-NaN record
and one extra NaN entry to each knee list — so a raise after a successful
knee append duplicates that frame in the list.  Returns the record and the
two knee-list contributions of this frame. -/
noncomputable def processFrame (ffc rel : ℕ) (f : Frame) :
    Record × List (ℕ × Option ℝ) × List (ℕ × Option ℝ) :=
  match angLk f Col.RIGHT_HIP_x Col.RIGHT_HIP_y Col.RIGHT_KNEE_x Col.RIGHT_KNEE_y
      Col.RIGHT_ANKLE_x Col.RIGHT_ANKLE_y with
  | .error _ => (nanRec f, [(f.idx, none)], [(f.idx, none)])
  | .ok fk =>
    match angLk f Col.RIGHT_SHOULDER_x Col.RIGHT_SHOULDER_y Col.RIGHT_ELBOW_x
        Col.RIGHT_ELBOW_y Col.RIGHT_WRIST_x Col.RIGHT_WRIST_y with
    | .error _ => (nanRec f, [(f.idx, fk), (f.idx, none)], [(f.idx, none)])
    | .ok elbow =>
      match angLk f Col.LEFT_HIP_x Col.LEFT_HIP_y Col.LEFT_KNEE_x Col.LEFT_KNEE_y
          Col.LEFT_ANKLE_x Col.LEFT_ANKLE_y with
      | .error _ => (nanRec f, [(f.idx, fk), (f.idx, none)], [(f.idx, none)])
      | .ok bk =>
        match restFeatures ffc rel f fk elbow bk with
        | .error _ => (nanRec f, [(f.idx, fk), (f.idx, none)], [(f.idx, bk), (f.idx, none)])
        | .ok r => (r, [(f.idx, fk)], [(f.idx, bk)])

/-- `extract_features_post_ffc` (source lines 93-249): detect events, keep the
frames with `frame >= ffc_frame`, and run the per-frame loop.  The
empty-window branch returns a bare empty DataFrame (source line 105), which
the caller `calculate_biomechanical_summary` immediately unpacks as a
3-tuple, raising `ValueError`; that error is surfaced here.  (The branch is
unreachable: after a successful detection the FFC row itself passes the
filter.)  Returns (ffc frame, release frame, records, front knee list,
back knee list). -/
noncomputable def extract_features_post_ffc (df : LandmarkSeq) :
    Except String (ℕ × ℕ × List Record × List (ℕ × Option ℝ) × List (ℕ × Option ℝ)) :=
  match detect_front_foot_contact df with
  | .error e => .error e
  | .ok (ffc, rel) =>
    let post := df.filter (fun f => decide (ffc ≤ f.idx))
    if post.isEmpty then .error "ValueError"
    else
      let trips := post.map (processFrame ffc rel)
      .ok (ffc, rel, trips.map (fun t => t.1),
        (trips.map (fun t => t.2.1)).flatten,
        (trips.map (fun t => t.2.2)).flatten)

/-- The three phase measurements (plus deviation) one knee analysis returns. -/
structure Phases : Type where
  contactAngle : ℝ
  flexAngle : ℝ
  extAngle : ℝ
  contactFrame : ℕ
  flexFrame : ℕ
  extFrame : ℕ
  deviation : ℝ

/-- Drop the NaN entries of a knee-angle series, keeping (frame, value). -/
def validPairs (l : List (ℕ × Option ℝ)) : List (ℕ × ℝ) :=
  l.filterMap (fun p => p.2.map (fun v => (p.1, v)))

/-- `analyze_front_knee_phases` (source lines 251-290): on the NaN-filtered
series, contact is the first entry, max flexion the first minimum, max
extension the first maximum, deviation their difference; all `None` when the
filtered series is empty. -/
noncomputable def analyze_front_knee_phases (l : List (ℕ × Option ℝ)) : Option Phases :=
  match validPairs l with
  | [] => none
  | v :: vs =>
    some ⟨v.2, (firstMin v vs).2, (firstMax v vs).2, v.1, (firstMin v vs).1,
      (firstMax v vs).1, (firstMax v vs).2 - v.2⟩

/-- `analyze_back_knee_phases` (source lines 292-341): same as the front-knee
analysis except that max extension is searched only in
`angles[len // 2 :]`, the second half of the filtered series.  (The inner
`[]` branch is unreachable: dropping `len // 2` of a non-empty list leaves at
least one entry.) -/
noncomputable def analyze_back_knee_phases (l : List (ℕ × Option ℝ)) : Option Phases :=
  match validPairs l with
  | [] => none
  | v :: vs =>
    match (v :: vs).drop ((v :: vs).length / 2) with
    | [] => none
    | w :: ws =>
      some ⟨v.2, (firstMin v vs).2, (firstMax w ws).2, v.1, (firstMin v vs).1,
        (firstMax w ws).1, (firstMax w ws).2 - v.2⟩

/-- One row of the final report (`summary_data` entries): feature label,
average/min/max (NaN as `none`), frame count, phase label, and the two event
frame references. -/
structure Row : Type where
  feature : FeatureName
  average : Option ℝ
  low : Option ℝ
  high : Option ℝ
  frames : ℕ
  phase : String
  ffcFrame : ℕ
  releaseFrame : ℕ

/-- Pandas `.mean()` over a non-empty series. -/
noncomputable def listMean (l : List ℝ) : ℝ := l.sum / l.length

/-- Pandas `.min()` over a non-empty series (0 is a dead default). -/
noncomputable def listMin : List ℝ → ℝ
  | [] => 0
  | a :: t => t.foldl min a

/-- Pandas `.max()` over a non-empty series (0 is a dead default). -/
noncomputable def listMax : List ℝ → ℝ
  | [] => 0
  | a :: t => t.foldl max a

/-- A mean/min/max/count row over a defined-value series at phase
`Ball Release`. -/
noncomputable def statRow (name : FeatureName) (vals : List ℝ) (ffc rel : ℕ) : Row :=
  ⟨name, some (listMean vals), some (listMin vals), some (listMax vals),
    vals.length, "Ball Release", ffc, rel⟩

/-- A single-frame phase row (Average = Min = Max, Frames = 1). -/
def phaseRow (name : FeatureName) (v : ℝ) (phase : String) (ffcF rel : ℕ) : Row :=
  ⟨name, some v, some v, some v, 1, phase, ffcF, rel⟩

/-- The release window (source lines 360-367): the records flagged as the
ball-release frame, or the last 3 records when none is flagged. -/
def releaseWindow (recs : List Record) : List Record :=
  let flagged := recs.filter (fun r => r.is_ball_release)
  if flagged.isEmpty then recs.drop (recs.length - 3) else flagged

/-- The ten comprehensive features (source lines 507-518), in catalog order. -/
def comprehensive_features : List FeatureName :=
  [.trunkLeanVal, .hipShoulderSeparation, .shoulderAlignment, .bowlingArmAngle,
   .nonBowlingArmAngle, .headPosition, .pelvisRotation, .frontAnkleAngle,
   .backAnkleAngle, .spineAngle]

/-- The record column a series feature reads (phase-row labels have no
column; the `none` arm is never consulted for them). -/
def colOf : FeatureName → Record → Option ℝ
  | .elbowAngle => Record.elbowAngle
  | .backKneeAngle => Record.backKneeAngle
  | .trunkLeanVal => Record.trunkLeanVal
  | .hipShoulderSeparation => Record.hipShoulderSeparation
  | .shoulderAlignment => Record.shoulderAlignment
  | .bowlingArmAngle => Record.bowlingArmAngle
  | .nonBowlingArmAngle => Record.nonBowlingArmAngle
  | .headPosition => Record.headPosition
  | .pelvisRotation => Record.pelvisRotation
  | .frontAnkleAngle => Record.frontAnkleAngle
  | .backAnkleAngle => Record.backAnkleAngle
  | .spineAngle => Record.spineAngle
  | _ => fun _ => none

/-- A conditional mean/min/max row (the source's Elbow Angle and Back Knee
Angle blocks, lines 374-386 and 492-504): emitted only when the window has at
least one defined value. -/
noncomputable def seriesRows (name : FeatureName) (col : Record → Option ℝ)
    (window : List Record) (ffc rel : ℕ) : List Row :=
  if (window.filterMap col).isEmpty then []
  else [statRow name (window.filterMap col) ffc rel]

/-- The four front-knee phase rows (source lines 388-438).  Note the
`Front Knee at FFC` row stores the analysis' own first frame (`ffc_frame`,
line 397), not `self.ffc_frame`. -/
noncomputable def frontRows (fkl : List (ℕ × Option ℝ)) (ffc rel : ℕ) : List Row :=
  match analyze_front_knee_phases fkl with
  | none => []
  | some p =>
    [phaseRow .frontKneeAtFFC p.contactAngle "Front Foot Contact" p.contactFrame rel,
     phaseRow .frontKneeMaxFlexion p.flexAngle "Maximum Flexion" ffc rel,
     phaseRow .frontKneeMaxExtension p.extAngle "Maximum Extension" ffc rel,
     phaseRow .kneeAngleDeviation p.deviation "FFC to Max Extension" ffc rel]

/-- The four back-knee phase rows (source lines 440-490). -/
noncomputable def backRows (bkl : List (ℕ × Option ℝ)) (ffc rel : ℕ) : List Row :=
  match analyze_back_knee_phases bkl with
  | none => []
  | some p =>
    [phaseRow .backKneeAtBFC p.contactAngle "Back Foot Contact" ffc rel,
     phaseRow .backKneeMaxFlexion p.flexAngle "Back Maximum Flexion" ffc rel,
     phaseRow .backKneeMaxExtension p.extAngle "Back Maximum Extension" ffc rel,
     phaseRow .backKneeDeviation p.deviation "BFC to Max Extension" ffc rel]

/-- One comprehensive-feature row (source lines 520-544): stats over the
defined window values, or the all-NaN count-0 fallback — always present. -/
noncomputable def compRow (window : List Record) (ffc rel : ℕ)
    (name : FeatureName) : Row :=
  if (window.filterMap (colOf name)).isEmpty then
    ⟨name, none, none, none, 0, "Ball Release", ffc, rel⟩
  else statRow name (window.filterMap (colOf name)) ffc rel

/-- The `summary_data` list (source lines 372-544), in source order: the
conditional Elbow row, the four front-knee phase rows, the four back-knee
phase rows, the conditional Back Knee Angle row, then the ten comprehensive
rows. -/
noncomputable def summaryRows (ffc rel : ℕ) (recs : List Record)
    (fkl bkl : List (ℕ × Option ℝ)) : List Row :=
  let window := releaseWindow recs
  seriesRows .elbowAngle Record.elbowAngle window ffc rel
    ++ frontRows fkl ffc rel
    ++ backRows bkl ffc rel
    ++ seriesRows .backKneeAngle Record.backKneeAngle window ffc rel
    ++ comprehensive_features.map (compRow window ffc rel)

/-- `calculate_biomechanical_summary` (source lines 343-546): run the
extractor, return an empty report when it produced no records
(source lines 349-351), otherwise assemble `summary_data`. -/
noncomputable def calculate_biomechanical_summary (df : LandmarkSeq) :
    Except String (List Row) :=
  match extract_features_post_ffc df with
  | .error e => .error e
  | .ok (ffc, rel, recs, fkl, bkl) =>
    if recs.isEmpty then .ok []
    else .ok (summaryRows ffc rel recs fkl bkl)

/-- The dictionary `analyze_bowling` returns. -/
structure AnalyzeResult : Type where
  status : String
  message : String
  details : Option (List Row)

/-- `analyze_bowling` (`model/analyze.py`, lines 10-28): the whole pipeline
runs inside `try`; success wraps the summary, any raised exception is caught
and turned into a `status: "error"` dictionary with the exception message. -/
noncomputable def analyze_bowling (df : LandmarkSeq) : AnalyzeResult :=
  match calculate_biomechanical_summary df with
  | .ok rows => ⟨"success", "Video analyzed successfully", some rows⟩
  | .error e => ⟨"error", e, none⟩

/-- The full-schema hypothesis of the standard pipeline: every recognized
landmark column is present on the row (cells may still be NaN).  Pose
extraction always emits the full fixed taxonomy, so this is the spec's data
model; a `KeyError` (whole-frame fallback) can only occur on a DataFrame
missing catalog columns altogether. -/
def schemaOk (f : Frame) : Prop := ∀ c : Col, f.cell c ≠ Cell.missing

/-- The record the `try` block produces when no column is missing: every
feature is computed from its own landmarks only (NaN-aware), so one feature's
missing/NaN landmark leaves every other feature untouched. -/
noncomputable def mkFullRecord (ffc rel : ℕ) (f : Frame) : Record where
  frame := f.idx
  is_ball_release := decide (f.idx = rel)
  is_ffc := decide (f.idx = ffc)
  elbowAngle := angleOpt (rowGetD f Col.RIGHT_SHOULDER_x) (rowGetD f Col.RIGHT_SHOULDER_y)
    (rowGetD f Col.RIGHT_ELBOW_x) (rowGetD f Col.RIGHT_ELBOW_y)
    (rowGetD f Col.RIGHT_WRIST_x) (rowGetD f Col.RIGHT_WRIST_y)
  frontKneeAngle := angleOpt (rowGetD f Col.RIGHT_HIP_x) (rowGetD f Col.RIGHT_HIP_y)
    (rowGetD f Col.RIGHT_KNEE_x) (rowGetD f Col.RIGHT_KNEE_y)
    (rowGetD f Col.RIGHT_ANKLE_x) (rowGetD f Col.RIGHT_ANKLE_y)
  backKneeAngle := angleOpt (rowGetD f Col.LEFT_HIP_x) (rowGetD f Col.LEFT_HIP_y)
    (rowGetD f Col.LEFT_KNEE_x) (rowGetD f Col.LEFT_KNEE_y)
    (rowGetD f Col.LEFT_ANKLE_x) (rowGetD f Col.LEFT_ANKLE_y)
  trunkLeanVal := angleOpt (rowGetD f Col.LEFT_SHOULDER_x) (rowGetD f Col.LEFT_SHOULDER_y)
    (rowGetD f Col.RIGHT_HIP_x) (rowGetD f Col.RIGHT_HIP_y)
    (rowGetD f Col.RIGHT_KNEE_x) (rowGetD f Col.RIGHT_KNEE_y)
  hipShoulderSeparation := angleOpt (rowGetD f Col.LEFT_HIP_x) (rowGetD f Col.LEFT_HIP_y)
    (rowGetD f Col.RIGHT_SHOULDER_x) (rowGetD f Col.RIGHT_SHOULDER_y)
    (rowGetD f Col.RIGHT_HIP_x) (rowGetD f Col.RIGHT_HIP_y)
  shoulderAlignment :=
    (Option.map₂ (fun l r => |l - r| * (572958 / 10000 : ℚ))
      (rowGetD f Col.LEFT_SHOULDER_y) (rowGetD f Col.RIGHT_SHOULDER_y)).map
      (fun q => (q : ℝ))
  bowlingArmAngle := angleOpt (rowGetD f Col.RIGHT_SHOULDER_x) (rowGetD f Col.RIGHT_SHOULDER_y)
    (rowGetD f Col.RIGHT_ELBOW_x) (rowGetD f Col.RIGHT_ELBOW_y)
    (rowGetD f Col.RIGHT_WRIST_x) (rowGetD f Col.RIGHT_WRIST_y)
  nonBowlingArmAngle := angleOpt (rowGetD f Col.LEFT_SHOULDER_x) (rowGetD f Col.LEFT_SHOULDER_y)
    (rowGetD f Col.LEFT_ELBOW_x) (rowGetD f Col.LEFT_ELBOW_y)
    (rowGetD f Col.LEFT_WRIST_x) (rowGetD f Col.LEFT_WRIST_y)
  headPosition := angleOpt (rowGetD f Col.LEFT_SHOULDER_x) (rowGetD f Col.LEFT_SHOULDER_y)
    (rowGetD f Col.NOSE_x) (rowGetD f Col.NOSE_y)
    (rowGetD f Col.RIGHT_SHOULDER_x) (rowGetD f Col.RIGHT_SHOULDER_y)
  pelvisRotation := angleOpt (rowGetD f Col.LEFT_HIP_x) (rowGetD f Col.LEFT_HIP_y)
    (rowGetD f Col.RIGHT_HIP_x) (rowGetD f Col.RIGHT_HIP_y)
    ((rowGetD f Col.RIGHT_HIP_x).map (fun u => u + 10)) (rowGetD f Col.RIGHT_HIP_y)
  frontAnkleAngle := angleOpt (rowGetD f Col.RIGHT_KNEE_x) (rowGetD f Col.RIGHT_KNEE_y)
    (rowGetD f Col.RIGHT_ANKLE_x) (rowGetD f Col.RIGHT_ANKLE_y)
    (rowGetD f Col.RIGHT_FOOT_INDEX_x) (rowGetD f Col.RIGHT_FOOT_INDEX_y)
  backAnkleAngle := angleOpt (rowGetD f Col.LEFT_KNEE_x) (rowGetD f Col.LEFT_KNEE_y)
    (rowGetD f Col.LEFT_ANKLE_x) (rowGetD f Col.LEFT_ANKLE_y)
    (rowGetD f Col.LEFT_FOOT_INDEX_x) (rowGetD f Col.LEFT_FOOT_INDEX_y)
  spineAngle := angleOpt
    (Option.map₂ (fun u v => (u + v) / 2) (rowGetD f Col.LEFT_HIP_x) (rowGetD f Col.RIGHT_HIP_x))
    (Option.map₂ (fun u v => (u + v) / 2) (rowGetD f Col.LEFT_HIP_y) (rowGetD f Col.RIGHT_HIP_y))
    (Option.map₂ (fun u v => (u + v) / 2) (rowGetD f Col.LEFT_SHOULDER_x) (rowGetD f Col.RIGHT_SHOULDER_x))
    (Option.map₂ (fun u v => (u + v) / 2) (rowGetD f Col.LEFT_SHOULDER_y) (rowGetD f Col.RIGHT_SHOULDER_y))
    ((Option.map₂ (fun u v => (u + v) / 2) (rowGetD f Col.LEFT_SHOULDER_x) (rowGetD f Col.RIGHT_SHOULDER_x)).map (fun u => u + 10))
    (Option.map₂ (fun u v => (u + v) / 2) (rowGetD f Col.LEFT_SHOULDER_y) (rowGetD f Col.RIGHT_SHOULDER_y))

/-- A full-schema row: every column present, all cells NaN except the front
ankle height. -/
def nanFrame : Frame :=
  ⟨0, fun c => match c with | Col.RIGHT_ANKLE_y => Cell.val 0 | _ => Cell.nan⟩

/-- Single-row full-schema sequence. -/
def cdfNaN : LandmarkSeq := [nanFrame]

/-- Row whose front-knee landmarks are present and non-degenerate while the
elbow landmarks are missing: the front-knee angle is appended, then the elbow
read raises and the `except` handler takes over. -/
def kneeFrame1 : Frame :=
  ⟨1, fun c => match c with
    | Col.RIGHT_ANKLE_y => Cell.val 1
    | Col.RIGHT_ANKLE_x => Cell.val 1
    | Col.RIGHT_HIP_x => Cell.val 0
    | Col.RIGHT_HIP_y => Cell.val 0
    | Col.RIGHT_KNEE_x => Cell.val 1
    | Col.RIGHT_KNEE_y => Cell.val 0
    | _ => Cell.missing⟩

/-- Two-row sequence where FFC lands on row 0 (ankle peak 9) whose front-knee
angle is undefined, while row 1 has a defined front-knee angle: the filtered
front-knee series starts at frame 1, not at the FFC frame 0. -/
def cexSeqKnee : LandmarkSeq :=
  [⟨0, fun c => match c with | Col.RIGHT_ANKLE_y => Cell.val 9 | _ => Cell.missing⟩,
   kneeFrame1]

/-- A concrete back-knee series with two defined entries. -/
noncomputable def bkSeriesTwo : List (ℕ × Option ℝ) := [(0, some 1), (1, some 2)]

/-- Number of report rows carrying a given feature label. -/
def countFeature (name : FeatureName) (rows : List Row) : ℕ :=
  (rows.filter (fun r => decide (r.feature = name))).length

/-- The two all-NaN records the extractor produces on `cexSeqTwo` (both rows
lack the front-knee columns, so the `except` handler fires on each). -/
def recsTwoNaN : List Record :=
  [⟨0, false, false, none, none, none, none, none, none, none, none, none,
     none, none, none, none⟩,
   ⟨1, false, false, none, none, none, none, none, none, none, none, none,
     none, none, none, none⟩]

/-- The knee lists the extractor produces on `cexSeqTwo`. -/
def klTwoNaN : List (ℕ × Option ℝ) := [(0, none), (1, none)]

/-- The front-knee angle of `kneeFrame1`: hip (0,0), knee (1,0), ankle (1,1),
a non-degenerate configuration. -/
noncomputable def kneeAngleVal : Option ℝ := calculate_angle (0, 0) (1, 0) (1, 1)

/-- The front-knee list the extractor produces on `cexSeqKnee`: frame 0 is
NaN, frame 1 contributes its defined angle and then a duplicate NaN entry
from the `except` handler (the elbow columns are missing). -/
noncomputable def fklKnee : List (ℕ × Option ℝ) :=
  [(0, none), (1, kneeAngleVal), (1, none)]

/-- Two-row sequence whose front ankle peaks on the first row: FFC resolves
to position 0 and exactly one frame remains after FFC. -/
def cexSeqTwo : LandmarkSeq :=
  [⟨0, fun c => match c with | Col.RIGHT_ANKLE_y => Cell.val 9 | _ => Cell.missing⟩,
   ⟨1, fun c => match c with | Col.RIGHT_ANKLE_y => Cell.val 1 | _ => Cell.missing⟩]

/-- Three-row sequence with exactly one defined front-ankle coordinate, on the
middle row. -/
def cexSeqOneDefined : LandmarkSeq :=
  [⟨0, fun _ => Cell.missing⟩,
   ⟨1, fun c => match c with | Col.RIGHT_ANKLE_y => Cell.val 5 | _ => Cell.missing⟩,
   ⟨2, fun _ => Cell.missing⟩]

end ProBowler

namespace ProBowler

/-- C8: for every 3-point input with `b ≠ a` and `b ≠ c`, `calculate_angle`
returns a defined value in `[0, 180]` degrees; for degenerate inputs
(`a = b` or `c = b`, a zero-length vector) it returns the undefined marker
`none` and, being a total function, never throws. -/
theorem calculate_angle_range_and_degenerate (a b c : ℚ × ℚ) :
    (a ≠ b → c ≠ b → ∃ v : ℝ, calculate_angle a b c = some v ∧ 0 ≤ v ∧ v ≤ 180) ∧
    (a = b ∨ c = b → calculate_angle a b c = none) := by
  constructor
  · intro ha hc
    have ha' : ¬(a.1 - b.1 = 0 ∧ a.2 - b.2 = 0) := by
      intro ⟨h1, h2⟩
      exact ha (Prod.ext (by linarith) (by linarith))
    have hc' : ¬(c.1 - b.1 = 0 ∧ c.2 - b.2 = 0) := by
      intro ⟨h1, h2⟩
      exact hc (Prod.ext (by linarith) (by linarith))
    refine ⟨_, by simp only [calculate_angle]; rw [if_neg (by tauto)], ?_, ?_⟩
    · have h0 := Real.arccos_nonneg (max (-1) (min 1
        (((((a.1 - b.1) * (c.1 - b.1) + (a.2 - b.2) * (c.2 - b.2) : ℚ)) : ℝ) /
          (Real.sqrt (((a.1 - b.1) ^ 2 + (a.2 - b.2) ^ 2 : ℚ) : ℝ) *
            Real.sqrt (((c.1 - b.1) ^ 2 + (c.2 - b.2) ^ 2 : ℚ) : ℝ)))))
      positivity
    · have h1 := Real.arccos_le_pi (max (-1) (min 1
        (((((a.1 - b.1) * (c.1 - b.1) + (a.2 - b.2) * (c.2 - b.2) : ℚ)) : ℝ) /
          (Real.sqrt (((a.1 - b.1) ^ 2 + (a.2 - b.2) ^ 2 : ℚ) : ℝ) *
            Real.sqrt (((c.1 - b.1) ^ 2 + (c.2 - b.2) ^ 2 : ℚ) : ℝ)))))
      rw [div_le_iff₀ Real.pi_pos]
      nlinarith [Real.pi_pos]
  · intro h
    rcases h with h | h
    · subst h
      simp [calculate_angle]
    · subst h
      simp [calculate_angle]

/-- Witness for C8 at concrete points: `a = (1,0)`, `b = (0,0)`, `c = (0,1)`
is non-degenerate, so the angle is defined and lies in `[0, 180]`; and the
degenerate call with `a = b` returns `none`. -/
theorem calculate_angle_range_witness :
    (∃ v : ℝ, calculate_angle (1, 0) (0, 0) (0, 1) = some v ∧ 0 ≤ v ∧ v ≤ 180) ∧
    calculate_angle (0, 0) (0, 0) (0, 1) = none := by
  refine ⟨(calculate_angle_range_and_degenerate (1, 0) (0, 0) (0, 1)).1
      (by decide) (by decide), ?_⟩
  exact (calculate_angle_range_and_degenerate (0, 0) (0, 0) (0, 1)).2 (Or.inl rfl)

theorem firstMax_mem {α : Type} [LinearOrder α] (l : List (ℕ × α)) (p : ℕ × α) :
    firstMax p l ∈ p :: l := by
  induction l generalizing p with
  | nil => simp [firstMax]
  | cons q t ih =>
    by_cases hc : p.2 < q.2
    · have h := ih q
      simp only [firstMax, List.foldl_cons, if_pos hc] at h ⊢
      rcases List.mem_cons.mp h with h | h
      · exact List.mem_cons.mpr (Or.inr (List.mem_cons.mpr (Or.inl h)))
      · exact List.mem_cons.mpr (Or.inr (List.mem_cons.mpr (Or.inr h)))
    · have h := ih p
      simp only [firstMax, List.foldl_cons, if_neg hc] at h ⊢
      rcases List.mem_cons.mp h with h | h
      · exact List.mem_cons.mpr (Or.inl h)
      · exact List.mem_cons.mpr (Or.inr (List.mem_cons.mpr (Or.inr h)))

theorem le_firstMax {α : Type} [LinearOrder α] (l : List (ℕ × α)) (p : ℕ × α) :
    ∀ q ∈ p :: l, q.2 ≤ (firstMax p l).2 := by
  induction l generalizing p with
  | nil =>
    intro q hq
    rcases List.mem_cons.mp hq with h | h
    · rw [h]; simp [firstMax]
    · simp at h
  | cons q t ih =>
    intro r hr
    have hhead : (if p.2 < q.2 then q else p).2 ≤ (firstMax p (q :: t)).2 := by
      have h := ih (if p.2 < q.2 then q else p) _ (List.mem_cons_self _ _)
      simpa [firstMax, List.foldl_cons] using h
    rcases List.mem_cons.mp hr with h | h
    · rw [h]
      refine le_trans ?_ hhead
      by_cases hc : p.2 < q.2
      · rw [if_pos hc]; exact le_of_lt hc
      · rw [if_neg hc]
    · rcases List.mem_cons.mp h with h | h
      · rw [h]
        refine le_trans ?_ hhead
        by_cases hc : p.2 < q.2
        · rw [if_pos hc]
        · rw [if_neg hc]; exact le_of_not_lt hc
      · have h2 := ih (if p.2 < q.2 then q else p) r (List.mem_cons_of_mem _ h)
        simpa [firstMax, List.foldl_cons] using h2

theorem mem_candAux (fs : List Frame) :
    ∀ (k i : ℕ) (v : ℚ), ((i, v) ∈ candAux k fs ↔
      ∃ j, j < fs.length ∧ i = k + j ∧ ankleY (fs.getD j defaultFrame) = some v) := by
  induction fs with
  | nil => intro k i v; simp [candAux]
  | cons f t ih =>
    intro k i v
    cases ha : ankleY f with
    | some w =>
      simp only [candAux, ha, List.mem_cons]
      constructor
      · intro h
        rcases h with h | h
        · rcases Prod.mk.injEq .. ▸ h with ⟨rfl, rfl⟩
          exact ⟨0, by simp, by omega, by rw [List.getD_cons_zero]; exact ha⟩
        · rcases (ih (k + 1) i v).mp h with ⟨j, hj, hij, hv⟩
          refine ⟨j + 1, by simp only [List.length_cons]; omega, by omega, ?_⟩
          rw [List.getD_cons_succ]; exact hv
      · rintro ⟨j, hj, rfl, hv⟩
        cases j with
        | zero =>
          rw [List.getD_cons_zero] at hv
          rw [ha] at hv
          left
          rw [Option.some.injEq] at hv
          simp [hv]
        | succ j =>
          right
          refine (ih (k + 1) _ v).mpr ⟨j, by simp only [List.length_cons] at hj; omega, by omega, ?_⟩
          rw [List.getD_cons_succ] at hv; exact hv
    | none =>
      simp only [candAux, ha]
      constructor
      · intro h
        rcases (ih (k + 1) i v).mp h with ⟨j, hj, hij, hv⟩
        refine ⟨j + 1, by simp only [List.length_cons]; omega, by omega, ?_⟩
        rw [List.getD_cons_succ]; exact hv
      · rintro ⟨j, hj, rfl, hv⟩
        cases j with
        | zero =>
          rw [List.getD_cons_zero] at hv
          rw [ha] at hv
          exact absurd hv (by simp)
        | succ j =>
          refine (ih (k + 1) _ v).mpr ⟨j, by simp only [List.length_cons] at hj; omega, by omega, ?_⟩
          rw [List.getD_cons_succ] at hv; exact hv

theorem mem_candidates_bound {df : LandmarkSeq} {i : ℕ} {v : ℚ}
    (h : (i, v) ∈ candidates df) :
    i < df.length ∧ ankleY (df.getD i defaultFrame) = some v := by
  rcases (mem_candAux df 0 i v).mp h with ⟨j, hj, hij, hv⟩
  have hji : i = j := by omega
  subst hji
  exact ⟨hj, hv⟩

theorem defined_mem_candidates {df : LandmarkSeq} {j : ℕ} {w : ℚ}
    (hj : j < df.length) (hw : ankleY (df.getD j defaultFrame) = some w) :
    (j, w) ∈ candidates df :=
  (mem_candAux df 0 j w).mpr ⟨j, hj, by omega, hw⟩

theorem detect_cons (df : LandmarkSeq) (c : ℕ × ℚ) (cs : List (ℕ × ℚ))
    (hc : candidates df = c :: cs) :
    detect_front_foot_contact df =
      .ok (frameAt df (firstMax c cs).1,
        if 0 < min 8 (df.length - (firstMax c cs).1 - 1)
        then frameAt df ((firstMax c cs).1 + min 8 (df.length - (firstMax c cs).1 - 1))
        else frameAt df (firstMax c cs).1) := by
  unfold detect_front_foot_contact
  rw [hc]

theorem detect_nil (df : LandmarkSeq) (hc : candidates df = []) (hne : df ≠ []) :
    detect_front_foot_contact df =
      .ok (frameAt df (df.length / 2),
        frameAt df (min (df.length / 2 + 5) (df.length - 1))) := by
  have hemp : df.isEmpty = false := by simp [List.isEmpty_iff, hne]
  unfold detect_front_foot_contact
  rw [hc]
  simp [hemp]

theorem frameAt_mono (df : LandmarkSeq)
    (hmono : df.Pairwise (fun a b => a.idx < b.idx)) {i j : ℕ}
    (hij : i ≤ j) (hj : j < df.length) : frameAt df i ≤ frameAt df j := by
  rcases eq_or_lt_of_le hij with rfl | h
  · exact le_rfl
  · have hi : i < df.length := lt_trans h hj
    have hlt := List.pairwise_iff_getElem.mp hmono i j hi hj h
    rw [frameAt, frameAt, List.getD_eq_getElem _ _ hi, List.getD_eq_getElem _ _ hj]
    exact le_of_lt hlt

/-- C4: for every non-empty sequence with strictly increasing frame indices,
whichever detection branch runs, the ball-release frame value is at least the
FFC frame value and at most the last row's frame value. -/
theorem ballRelease_ge_ffc_le_last (df : LandmarkSeq) (hne : df ≠ [])
    (hmono : df.Pairwise (fun a b => a.idx < b.idx)) (ffc rel : ℕ)
    (hdet : detect_front_foot_contact df = .ok (ffc, rel)) :
    ffc ≤ rel ∧ rel ≤ frameAt df (df.length - 1) := by
  have hlen : 0 < df.length := List.length_pos.mpr hne
  cases hc : candidates df with
  | nil =>
    rw [detect_nil df hc hne] at hdet
    simp only [Except.ok.injEq, Prod.mk.injEq] at hdet
    obtain ⟨rfl, rfl⟩ := hdet
    constructor
    · exact frameAt_mono df hmono (by omega) (by omega)
    · exact frameAt_mono df hmono (by omega) (by omega)
  | cons c cs =>
    rw [detect_cons df c cs hc] at hdet
    have hi : (firstMax c cs).1 < df.length := by
      have hm : firstMax c cs ∈ candidates df := by
        rw [hc]; exact firstMax_mem cs c
      have hb := mem_candidates_bound (by
        have h : ((firstMax c cs).1, (firstMax c cs).2) = firstMax c cs := rfl
        rw [h]; exact hm)
      exact hb.1
    by_cases h0 : 0 < min 8 (df.length - (firstMax c cs).1 - 1)
    · rw [if_pos h0] at hdet
      simp only [Except.ok.injEq, Prod.mk.injEq] at hdet
      obtain ⟨rfl, rfl⟩ := hdet
      constructor
      · exact frameAt_mono df hmono (by omega) (by omega)
      · exact frameAt_mono df hmono (by omega) (by omega)
    · rw [if_neg h0] at hdet
      simp only [Except.ok.injEq, Prod.mk.injEq] at hdet
      obtain ⟨rfl, rfl⟩ := hdet
      exact ⟨le_rfl, frameAt_mono df hmono (by omega) (by omega)⟩

/-- Witness for C4 on the concrete two-row sequence `cexSeqTwo`
(frame values 0 and 1, FFC at row 0, release at row 1). -/
theorem ballRelease_ge_ffc_le_last_witness :
    (0 : ℕ) ≤ 1 ∧ (1 : ℕ) ≤ frameAt cexSeqTwo (cexSeqTwo.length - 1) :=
  ballRelease_ge_ffc_le_last cexSeqTwo (by simp [cexSeqTwo])
    (by simp [cexSeqTwo, List.pairwise_cons]) 0 1 rfl

/-- C5 counterexample: in `cexSeqTwo` the FFC lands on row 0 of 2, so exactly
one frame remains after FFC, yet ball release does not collapse to the FFC
frame: the detector returns release frame 1 ≠ FFC frame 0 (the collapse
happens only when the offset `min(8, len - ffc_idx - 1)` is zero, i.e. when
FFC is the last row). -/
theorem release_collapse_cex :
    cexSeqTwo.length = 2 ∧
    detect_front_foot_contact cexSeqTwo = .ok (0, 1) ∧
    frameAt cexSeqTwo 0 = 0 ∧ (1 : ℕ) ≠ 0 := by
  exact ⟨rfl, rfl, rfl, by decide⟩

/-- C5 (amended): when FFC is detected from ankle data at position `i`,
ball release is the frame at position `i + min(8, len - i - 1)` — the fixed
offset 8 clamped to the last row — whenever at least one frame remains after
FFC (`i < len - 1`); ball release collapses to exactly the FFC frame only
when FFC is the last row (`i = len - 1`). -/
theorem release_offset_amended (df : LandmarkSeq) (c : ℕ × ℚ) (cs : List (ℕ × ℚ))
    (hc : candidates df = c :: cs) :
    ((firstMax c cs).1 = df.length - 1 →
      detect_front_foot_contact df =
        .ok (frameAt df (firstMax c cs).1, frameAt df (firstMax c cs).1)) ∧
    ((firstMax c cs).1 < df.length - 1 →
      detect_front_foot_contact df =
        .ok (frameAt df (firstMax c cs).1,
          frameAt df ((firstMax c cs).1 + min 8 (df.length - (firstMax c cs).1 - 1))) ∧
      (firstMax c cs).1 + min 8 (df.length - (firstMax c cs).1 - 1) ≤ df.length - 1) := by
  have hi : (firstMax c cs).1 < df.length := by
    have hm : firstMax c cs ∈ candidates df := by
      rw [hc]; exact firstMax_mem cs c
    have hb := mem_candidates_bound (by
      have h : ((firstMax c cs).1, (firstMax c cs).2) = firstMax c cs := rfl
      rw [h]; exact hm)
    exact hb.1
  constructor
  · intro hlast
    rw [detect_cons df c cs hc]
    have h0 : ¬ 0 < min 8 (df.length - (firstMax c cs).1 - 1) := by omega
    rw [if_neg h0]
  · intro hlt
    have h0 : 0 < min 8 (df.length - (firstMax c cs).1 - 1) := by omega
    refine ⟨?_, by omega⟩
    rw [detect_cons df c cs hc]
    rw [if_pos h0]

/-- Witness for C5 (amended) on `cexSeqTwo`: FFC at position 0 of 2 rows,
release at position `0 + min(8, 1) = 1`, clamped within the last row. -/
theorem release_offset_amended_witness :
    detect_front_foot_contact cexSeqTwo =
      .ok (frameAt cexSeqTwo (firstMax (0, (9 : ℚ)) [(1, (1 : ℚ))]).1,
        frameAt cexSeqTwo ((firstMax (0, (9 : ℚ)) [(1, (1 : ℚ))]).1 +
          min 8 (cexSeqTwo.length - (firstMax (0, (9 : ℚ)) [(1, (1 : ℚ))]).1 - 1))) ∧
    (firstMax (0, (9 : ℚ)) [(1, (1 : ℚ))]).1 +
        min 8 (cexSeqTwo.length - (firstMax (0, (9 : ℚ)) [(1, (1 : ℚ))]).1 - 1) ≤
      cexSeqTwo.length - 1 :=
  (release_offset_amended cexSeqTwo (0, (9 : ℚ)) [(1, (1 : ℚ))] rfl).2 (by decide)

/-- C7: whenever some frame has a defined front-ankle coordinate, the detector
resolves FFC to a frame position whose ankle value is defined and maximal
among all defined values; in particular, when exactly one frame has a defined
value (`cs = []`) FFC is exactly that frame's position, wherever it sits. -/
theorem ffc_max_defined_ankle (df : LandmarkSeq) (c : ℕ × ℚ) (cs : List (ℕ × ℚ))
    (hc : candidates df = c :: cs) :
    ∃ i v rel, detect_front_foot_contact df = .ok (frameAt df i, rel) ∧
      i < df.length ∧ ankleY (df.getD i defaultFrame) = some v ∧
      (∀ j w, j < df.length → ankleY (df.getD j defaultFrame) = some w → w ≤ v) ∧
      (cs = [] → i = c.1 ∧ v = c.2) := by
  have hm : firstMax c cs ∈ candidates df := by
    rw [hc]; exact firstMax_mem cs c
  have hb := mem_candidates_bound (by
    have h : ((firstMax c cs).1, (firstMax c cs).2) = firstMax c cs := rfl
    rw [h]; exact hm)
  refine ⟨(firstMax c cs).1, (firstMax c cs).2,
    (if 0 < min 8 (df.length - (firstMax c cs).1 - 1)
      then frameAt df ((firstMax c cs).1 + min 8 (df.length - (firstMax c cs).1 - 1))
      else frameAt df (firstMax c cs).1),
    detect_cons df c cs hc, hb.1, hb.2, ?_, ?_⟩
  · intro j w hj hw
    have hmem : (j, w) ∈ candidates df := defined_mem_candidates hj hw
    rw [hc] at hmem
    exact le_firstMax cs c (j, w) hmem
  · intro hnil
    subst hnil
    exact ⟨rfl, rfl⟩

/-- Witness for C7 on `cexSeqOneDefined`: the only defined ankle value sits on
the middle row (position 1), and FFC resolves there. -/
theorem ffc_max_defined_ankle_witness :
    ∃ i v rel,
      detect_front_foot_contact cexSeqOneDefined = .ok (frameAt cexSeqOneDefined i, rel) ∧
      i < cexSeqOneDefined.length ∧
      ankleY (cexSeqOneDefined.getD i defaultFrame) = some v ∧
      (∀ j w, j < cexSeqOneDefined.length →
        ankleY (cexSeqOneDefined.getD j defaultFrame) = some w → w ≤ v) ∧
      (([] : List (ℕ × ℚ)) = [] → i = (1, (5 : ℚ)).1 ∧ v = (1, (5 : ℚ)).2) :=
  ffc_max_defined_ankle cexSeqOneDefined (1, (5 : ℚ)) [] rfl

theorem rowGet_schemaOk {f : Frame} (h : schemaOk f) (c : Col) :
    rowGet f c = .ok (rowGetD f c) := by
  unfold rowGet rowGetD
  cases hc : f.cell c with
  | missing => exact absurd hc (h c)
  | nan => rfl
  | val q => rfl

theorem angLk_schemaOk {f : Frame} (h : schemaOk f) (c1 c2 c3 c4 c5 c6 : Col) :
    angLk f c1 c2 c3 c4 c5 c6 =
      .ok (angleOpt (rowGetD f c1) (rowGetD f c2) (rowGetD f c3) (rowGetD f c4)
        (rowGetD f c5) (rowGetD f c6)) := by
  unfold angLk
  rw [rowGet_schemaOk h c1, rowGet_schemaOk h c2, rowGet_schemaOk h c3,
    rowGet_schemaOk h c4, rowGet_schemaOk h c5, rowGet_schemaOk h c6]
  rfl

theorem restFeatures_schemaOk {f : Frame} (h : schemaOk f) (ffc rel : ℕ)
    (fk elbow bk : Option ℝ) :
    restFeatures ffc rel f fk elbow bk =
      .ok { mkFullRecord ffc rel f with
            elbowAngle := elbow, frontKneeAngle := fk, backKneeAngle := bk } := by
  unfold restFeatures mkFullRecord
  rw [rowGet_schemaOk h Col.LEFT_SHOULDER_x, rowGet_schemaOk h Col.LEFT_SHOULDER_y,
    rowGet_schemaOk h Col.RIGHT_SHOULDER_x, rowGet_schemaOk h Col.RIGHT_SHOULDER_y,
    rowGet_schemaOk h Col.RIGHT_ELBOW_x, rowGet_schemaOk h Col.RIGHT_ELBOW_y,
    rowGet_schemaOk h Col.RIGHT_WRIST_x, rowGet_schemaOk h Col.RIGHT_WRIST_y,
    rowGet_schemaOk h Col.RIGHT_HIP_x, rowGet_schemaOk h Col.RIGHT_HIP_y,
    rowGet_schemaOk h Col.RIGHT_KNEE_x, rowGet_schemaOk h Col.RIGHT_KNEE_y,
    rowGet_schemaOk h Col.RIGHT_ANKLE_x, rowGet_schemaOk h Col.RIGHT_ANKLE_y,
    rowGet_schemaOk h Col.RIGHT_FOOT_INDEX_x, rowGet_schemaOk h Col.RIGHT_FOOT_INDEX_y,
    rowGet_schemaOk h Col.LEFT_HIP_x, rowGet_schemaOk h Col.LEFT_HIP_y,
    rowGet_schemaOk h Col.LEFT_KNEE_x, rowGet_schemaOk h Col.LEFT_KNEE_y,
    rowGet_schemaOk h Col.LEFT_ANKLE_x, rowGet_schemaOk h Col.LEFT_ANKLE_y,
    rowGet_schemaOk h Col.LEFT_FOOT_INDEX_x, rowGet_schemaOk h Col.LEFT_FOOT_INDEX_y,
    rowGet_schemaOk h Col.LEFT_ELBOW_x, rowGet_schemaOk h Col.LEFT_ELBOW_y,
    rowGet_schemaOk h Col.LEFT_WRIST_x, rowGet_schemaOk h Col.LEFT_WRIST_y,
    rowGet_schemaOk h Col.NOSE_x, rowGet_schemaOk h Col.NOSE_y]
  rfl

theorem processFrame_schemaOk {f : Frame} (h : schemaOk f) (ffc rel : ℕ) :
    processFrame ffc rel f =
      (mkFullRecord ffc rel f,
        [(f.idx, (mkFullRecord ffc rel f).frontKneeAngle)],
        [(f.idx, (mkFullRecord ffc rel f).backKneeAngle)]) := by
  unfold processFrame
  simp only [angLk_schemaOk h, restFeatures_schemaOk h]
  rfl

theorem extract_of_detect_error (df : LandmarkSeq) (e : String)
    (hd : detect_front_foot_contact df = .error e) :
    extract_features_post_ffc df = .error e := by
  unfold extract_features_post_ffc
  rw [hd]

theorem extract_of_detect_ok (df : LandmarkSeq) (ffc rel : ℕ)
    (hd : detect_front_foot_contact df = .ok (ffc, rel)) :
    extract_features_post_ffc df =
      (if (df.filter (fun f => decide (ffc ≤ f.idx))).isEmpty then .error "ValueError"
       else .ok (ffc, rel,
         ((df.filter (fun f => decide (ffc ≤ f.idx))).map (processFrame ffc rel)).map
           (fun t => t.1),
         (((df.filter (fun f => decide (ffc ≤ f.idx))).map (processFrame ffc rel)).map
           (fun t => t.2.1)).flatten,
         (((df.filter (fun f => decide (ffc ≤ f.idx))).map (processFrame ffc rel)).map
           (fun t => t.2.2)).flatten)) := by
  unfold extract_features_post_ffc
  rw [hd]

theorem extract_components (df : LandmarkSeq) (ffc rel : ℕ) (recs : List Record)
    (fkl bkl : List (ℕ × Option ℝ))
    (hex : extract_features_post_ffc df = .ok (ffc, rel, recs, fkl, bkl)) :
    detect_front_foot_contact df = .ok (ffc, rel) ∧
    recs = (df.filter (fun f => decide (ffc ≤ f.idx))).map
      (fun f => (processFrame ffc rel f).1) ∧
    recs ≠ [] := by
  cases hd : detect_front_foot_contact df with
  | error e =>
    rw [extract_of_detect_error df e hd] at hex
    exact absurd hex (by simp)
  | ok pr =>
    obtain ⟨ffc', rel'⟩ := pr
    rw [extract_of_detect_ok df ffc' rel' hd] at hex
    by_cases hpost : (df.filter (fun f => decide (ffc' ≤ f.idx))).isEmpty
    · rw [if_pos hpost] at hex
      exact absurd hex (by simp)
    · rw [if_neg hpost] at hex
      simp only [Except.ok.injEq, Prod.mk.injEq] at hex
      obtain ⟨rfl, rfl, hrecs, hfkl, hbkl⟩ := hex
      refine ⟨rfl, ?_, ?_⟩
      · rw [← hrecs, List.map_map]
        rfl
      · intro hnil
        rw [hnil] at hrecs
        rw [List.isEmpty_iff] at hpost
        exact hpost (List.map_eq_nil_iff.mp (List.map_eq_nil_iff.mp hrecs))

theorem summary_of_extract_ok (df : LandmarkSeq) (ffc rel : ℕ) (recs : List Record)
    (fkl bkl : List (ℕ × Option ℝ))
    (hex : extract_features_post_ffc df = .ok (ffc, rel, recs, fkl, bkl)) :
    calculate_biomechanical_summary df = .ok (summaryRows ffc rel recs fkl bkl) := by
  have hne := (extract_components df ffc rel recs fkl bkl hex).2.2
  have hemp : recs.isEmpty = false := by
    simp [List.isEmpty_iff, hne]
  have hstep : calculate_biomechanical_summary df =
      (if recs.isEmpty then .ok [] else .ok (summaryRows ffc rel recs fkl bkl)) := by
    unfold calculate_biomechanical_summary
    rw [hex]
  rw [hstep, hemp]
  simp

/-- C2: for every processed post-FFC frame the extractor emits exactly one
record — no frame is dropped — and, on full-schema rows (every catalog column
present, the spec's data model), the record is `mkFullRecord`, whose every
feature is computed from that feature's own landmarks only; hence a
missing/NaN landmark required by one feature makes only that feature's value
undefined, while every other feature with its own landmarks defined and
non-degenerate still gets a defined value, for this and all remaining
frames. -/
theorem per_frame_isolation (df : LandmarkSeq) (ffc rel : ℕ) (recs : List Record)
    (fkl bkl : List (ℕ × Option ℝ))
    (hex : extract_features_post_ffc df = .ok (ffc, rel, recs, fkl, bkl)) :
    recs = (df.filter (fun f => decide (ffc ≤ f.idx))).map
      (fun f => (processFrame ffc rel f).1) ∧
    recs.length = (df.filter (fun f => decide (ffc ≤ f.idx))).length ∧
    ∀ f, schemaOk f → (processFrame ffc rel f).1 = mkFullRecord ffc rel f := by
  obtain ⟨-, hrecs, -⟩ := extract_components df ffc rel recs fkl bkl hex
  refine ⟨hrecs, ?_, ?_⟩
  · rw [hrecs, List.length_map]
  · intro f hf
    rw [processFrame_schemaOk hf]

/-- Witness for C2 on the single-row full-schema sequence `cdfNaN`: the
extractor emits exactly its one record, and on that row (schema hypothesis
discharged concretely) the record is the feature-wise independent
`mkFullRecord`. -/
theorem per_frame_isolation_witness :
    ([⟨0, true, true, none, none, none, none, none, none, none, none, none,
        none, none, none, none⟩] : List Record) =
      (cdfNaN.filter (fun f => decide (0 ≤ f.idx))).map
        (fun f => (processFrame 0 0 f).1) ∧
    ([⟨0, true, true, none, none, none, none, none, none, none, none, none,
        none, none, none, none⟩] : List Record).length =
      (cdfNaN.filter (fun f => decide (0 ≤ f.idx))).length ∧
    (∀ f, schemaOk f → (processFrame 0 0 f).1 = mkFullRecord 0 0 f) ∧
    (processFrame 0 0 nanFrame).1 = mkFullRecord 0 0 nanFrame := by
  have h := per_frame_isolation cdfNaN 0 0
    [⟨0, true, true, none, none, none, none, none, none, none, none, none,
      none, none, none, none⟩] [(0, none)] [(0, none)] rfl
  refine ⟨h.1, h.2.1, h.2.2, h.2.2 nanFrame ?_⟩
  intro c hc
  cases c <;> simp [nanFrame] at hc

/-- C3 (code-bug evidence): on the empty landmark sequence the fallback
`self.df.iloc[mid_frame]` indexes an empty DataFrame, so the event detector
raises `IndexError`, and the summary propagates the exception instead of
emitting count-0 catalog rows. -/
theorem empty_sequence_raises :
    detect_front_foot_contact ([] : LandmarkSeq) = .error "IndexError" ∧
    calculate_biomechanical_summary ([] : LandmarkSeq) = .error "IndexError" :=
  ⟨rfl, rfl⟩

theorem analyze_back_cons (l : List (ℕ × Option ℝ)) (v : ℕ × ℝ) (vs : List (ℕ × ℝ))
    (hv : validPairs l = v :: vs) :
    analyze_back_knee_phases l =
      (match (v :: vs).drop ((v :: vs).length / 2) with
       | [] => none
       | w :: ws =>
         some ⟨v.2, (firstMin v vs).2, (firstMax w ws).2, v.1, (firstMin v vs).1,
           (firstMax w ws).1, (firstMax w ws).2 - v.2⟩) := by
  unfold analyze_back_knee_phases
  rw [hv]

/-- C9: for every back-knee series whose NaN-filtered form has at least 2
entries, the max-extension entry the analyzer returns occurs at a position of
the filtered series that is at least `length / 2` — never in the first
half. -/
theorem back_knee_ext_second_half (l : List (ℕ × Option ℝ))
    (h2 : 2 ≤ (validPairs l).length) :
    ∃ p, analyze_back_knee_phases l = some p ∧
      ∃ i, (validPairs l).length / 2 ≤ i ∧
        ∃ hi : i < (validPairs l).length,
          (validPairs l).get ⟨i, hi⟩ = (p.extFrame, p.extAngle) := by
  cases hv : validPairs l with
  | nil => rw [hv] at h2; simp at h2
  | cons v vs =>
    rw [hv] at h2
    cases hl : (v :: vs).drop ((v :: vs).length / 2) with
    | nil =>
      have hlen := congrArg List.length hl
      rw [List.length_drop] at hlen
      simp only [List.length_cons, List.length_nil] at hlen
      omega
    | cons w ws =>
      rw [analyze_back_cons l v vs hv, hl]
      refine ⟨⟨v.2, (firstMin v vs).2, (firstMax w ws).2, v.1, (firstMin v vs).1,
        (firstMax w ws).1, (firstMax w ws).2 - v.2⟩, rfl, ?_⟩
      have hmem : firstMax w ws ∈ (v :: vs).drop ((v :: vs).length / 2) := by
        rw [hl]; exact firstMax_mem ws w
      obtain ⟨j, hj, hjeq⟩ := List.getElem_of_mem hmem
      have hjlen : j < (v :: vs).length - (v :: vs).length / 2 := by
        rw [← List.length_drop]; exact hj
      have hb2 : (v :: vs).length / 2 + j < (v :: vs).length := by omega
      refine ⟨(v :: vs).length / 2 + j, by omega, hb2, ?_⟩
      rw [List.get_eq_getElem]
      have hdrop : ((v :: vs).drop ((v :: vs).length / 2))[j] =
          (v :: vs)[(v :: vs).length / 2 + j] :=
        List.getElem_drop (v :: vs)
      rw [← hdrop, hjeq]

/-- Witness for C9 on `bkSeriesTwo`: the filtered series has 2 entries and
the returned max-extension entry sits at a position of at least 1. -/
theorem back_knee_ext_second_half_witness :
    ∃ p, analyze_back_knee_phases bkSeriesTwo = some p ∧
      ∃ i, (validPairs bkSeriesTwo).length / 2 ≤ i ∧
        ∃ hi : i < (validPairs bkSeriesTwo).length,
          (validPairs bkSeriesTwo).get ⟨i, hi⟩ = (p.extFrame, p.extAngle) :=
  back_knee_ext_second_half bkSeriesTwo (by decide)

theorem countFeature_append (n : FeatureName) (a b : List Row) :
    countFeature n (a ++ b) = countFeature n a + countFeature n b := by
  simp [countFeature, List.filter_append]

theorem countFeature_seriesRows (n name : FeatureName) (col : Record → Option ℝ)
    (w : List Record) (ffc rel : ℕ) :
    countFeature n (seriesRows name col w ffc rel) =
      if (w.filterMap col).isEmpty then 0 else if name = n then 1 else 0 := by
  unfold seriesRows countFeature
  split
  · rfl
  · by_cases hn : name = n
    · rw [if_pos hn]
      subst hn
      simp [statRow]
    · rw [if_neg hn]
      simp [statRow, hn]

theorem countFeature_frontRows_ne (n : FeatureName) (fkl : List (ℕ × Option ℝ))
    (ffc rel : ℕ) (h1 : n ≠ .frontKneeAtFFC) (h2 : n ≠ .frontKneeMaxFlexion)
    (h3 : n ≠ .frontKneeMaxExtension) (h4 : n ≠ .kneeAngleDeviation) :
    countFeature n (frontRows fkl ffc rel) = 0 := by
  unfold frontRows countFeature
  split
  · rfl
  · simp [phaseRow, Ne.symm h1, Ne.symm h2, Ne.symm h3, Ne.symm h4]

theorem countFeature_backRows_ne (n : FeatureName) (bkl : List (ℕ × Option ℝ))
    (ffc rel : ℕ) (h1 : n ≠ .backKneeAtBFC) (h2 : n ≠ .backKneeMaxFlexion)
    (h3 : n ≠ .backKneeMaxExtension) (h4 : n ≠ .backKneeDeviation) :
    countFeature n (backRows bkl ffc rel) = 0 := by
  unfold backRows countFeature
  split
  · rfl
  · simp [phaseRow, Ne.symm h1, Ne.symm h2, Ne.symm h3, Ne.symm h4]

theorem compRow_feature (w : List Record) (ffc rel : ℕ) (name : FeatureName) :
    (compRow w ffc rel name).feature = name := by
  unfold compRow
  split <;> rfl

theorem countFeature_comp_map (n : FeatureName) (w : List Record) (ffc rel : ℕ)
    (L : List FeatureName) :
    countFeature n (L.map (compRow w ffc rel)) =
      (L.filter (fun m => decide (m = n))).length := by
  induction L with
  | nil => rfl
  | cons m t ih =>
    simp only [List.map_cons, countFeature, List.filter_cons, compRow_feature] at ih ⊢
    by_cases hm : m = n
    · simp [hm, ih]
    · simp [hm, ih]

/-- C1 (amended): whenever the extractor yields post-FFC records (the set is
then necessarily non-empty), the report contains exactly one row for each of
the ten comprehensive features — the count-0 all-NaN fallback row when no
defined values exist in the release window — while the `Elbow Angle` and
`Back Knee Angle` rows are emitted exactly when the release window holds at
least one defined value for them, and are omitted (not emitted with count 0)
otherwise. -/
theorem catalog_row_emission (df : LandmarkSeq) (ffc rel : ℕ) (recs : List Record)
    (fkl bkl : List (ℕ × Option ℝ))
    (hex : extract_features_post_ffc df = .ok (ffc, rel, recs, fkl, bkl)) :
    calculate_biomechanical_summary df = .ok (summaryRows ffc rel recs fkl bkl) ∧
    (∀ name ∈ comprehensive_features,
      countFeature name (summaryRows ffc rel recs fkl bkl) = 1) ∧
    countFeature .elbowAngle (summaryRows ffc rel recs fkl bkl) =
      (if ((releaseWindow recs).filterMap Record.elbowAngle).isEmpty then 0 else 1) ∧
    countFeature .backKneeAngle (summaryRows ffc rel recs fkl bkl) =
      (if ((releaseWindow recs).filterMap Record.backKneeAngle).isEmpty then 0 else 1) := by
  have hsum : summaryRows ffc rel recs fkl bkl =
      seriesRows .elbowAngle Record.elbowAngle (releaseWindow recs) ffc rel
        ++ frontRows fkl ffc rel ++ backRows bkl ffc rel
        ++ seriesRows .backKneeAngle Record.backKneeAngle (releaseWindow recs) ffc rel
        ++ comprehensive_features.map (compRow (releaseWindow recs) ffc rel) := rfl
  refine ⟨summary_of_extract_ok df ffc rel recs fkl bkl hex, ?_, ?_, ?_⟩
  · intro name hname
    fin_cases hname <;>
      rw [hsum, countFeature_append, countFeature_append, countFeature_append,
        countFeature_append, countFeature_seriesRows, countFeature_seriesRows,
        countFeature_comp_map,
        countFeature_frontRows_ne _ _ _ _ (by decide) (by decide) (by decide) (by decide),
        countFeature_backRows_ne _ _ _ _ (by decide) (by decide) (by decide) (by decide)] <;>
      simp [comprehensive_features]
  · rw [hsum, countFeature_append, countFeature_append, countFeature_append,
      countFeature_append, countFeature_seriesRows, countFeature_seriesRows,
      countFeature_comp_map,
      countFeature_frontRows_ne _ _ _ _ (by decide) (by decide) (by decide) (by decide),
      countFeature_backRows_ne _ _ _ _ (by decide) (by decide) (by decide) (by decide)]
    simp [comprehensive_features]
  · rw [hsum, countFeature_append, countFeature_append, countFeature_append,
      countFeature_append, countFeature_seriesRows, countFeature_seriesRows,
      countFeature_comp_map,
      countFeature_frontRows_ne _ _ _ _ (by decide) (by decide) (by decide) (by decide),
      countFeature_backRows_ne _ _ _ _ (by decide) (by decide) (by decide) (by decide)]
    simp [comprehensive_features]

/-- C1 counterexample: on `cexSeqTwo` the extractor yields two (all-NaN)
post-FFC records — a non-empty record set — yet the report contains no
`Elbow Angle` row at all, while the comprehensive `Trunk Lean` row is present
(with count 0): the Elbow Angle row is omitted when it has no defined values,
not emitted with count 0. -/
theorem elbow_row_omitted_cex :
    extract_features_post_ffc cexSeqTwo = .ok (0, 1, recsTwoNaN, klTwoNaN, klTwoNaN) ∧
    recsTwoNaN ≠ [] ∧
    calculate_biomechanical_summary cexSeqTwo =
      .ok (summaryRows 0 1 recsTwoNaN klTwoNaN klTwoNaN) ∧
    countFeature .elbowAngle (summaryRows 0 1 recsTwoNaN klTwoNaN klTwoNaN) = 0 ∧
    countFeature .trunkLeanVal (summaryRows 0 1 recsTwoNaN klTwoNaN klTwoNaN) = 1 ∧
    (compRow (releaseWindow recsTwoNaN) 0 1 .trunkLeanVal).frames = 0 := by
  refine ⟨rfl, by simp [recsTwoNaN], summary_of_extract_ok _ 0 1 _ _ _ rfl, rfl, rfl, rfl⟩

/-- Witness for C1 (amended) on `cexSeqTwo`: the `Trunk Lean` row count is 1
and the `Elbow Angle` row count matches the emptiness of its window values. -/
theorem catalog_row_emission_witness :
    calculate_biomechanical_summary cexSeqTwo =
      .ok (summaryRows 0 1 recsTwoNaN klTwoNaN klTwoNaN) ∧
    countFeature .trunkLeanVal (summaryRows 0 1 recsTwoNaN klTwoNaN klTwoNaN) = 1 ∧
    countFeature .elbowAngle (summaryRows 0 1 recsTwoNaN klTwoNaN klTwoNaN) =
      (if ((releaseWindow recsTwoNaN).filterMap Record.elbowAngle).isEmpty
        then 0 else 1) := by
  have h := catalog_row_emission cexSeqTwo 0 1 recsTwoNaN klTwoNaN klTwoNaN rfl
  exact ⟨h.1, h.2.1 .trunkLeanVal (by decide), h.2.2.1⟩

/-- C6 (amended): every report row carries the global ball-release frame in
its `Release_Frame` field, and every row other than `Front Knee at FFC`
carries the global FFC frame in `FFC_Frame`; the `Front Knee at FFC` row
instead carries the first frame of the NaN-filtered front-knee series (the
local `ffc_frame` of the front-knee analysis), which can differ from the
global FFC frame. -/
theorem row_event_references (df : LandmarkSeq) (ffc rel : ℕ) (recs : List Record)
    (fkl bkl : List (ℕ × Option ℝ))
    (hex : extract_features_post_ffc df = .ok (ffc, rel, recs, fkl, bkl)) :
    calculate_biomechanical_summary df = .ok (summaryRows ffc rel recs fkl bkl) ∧
    ∀ r ∈ summaryRows ffc rel recs fkl bkl,
      r.releaseFrame = rel ∧
      (r.feature ≠ .frontKneeAtFFC → r.ffcFrame = ffc) ∧
      (r.feature = .frontKneeAtFFC →
        ∃ p, analyze_front_knee_phases fkl = some p ∧ r.ffcFrame = p.contactFrame) := by
  refine ⟨summary_of_extract_ok df ffc rel recs fkl bkl hex, ?_⟩
  intro r hr
  have hsum : summaryRows ffc rel recs fkl bkl =
      seriesRows .elbowAngle Record.elbowAngle (releaseWindow recs) ffc rel
        ++ frontRows fkl ffc rel ++ backRows bkl ffc rel
        ++ seriesRows .backKneeAngle Record.backKneeAngle (releaseWindow recs) ffc rel
        ++ comprehensive_features.map (compRow (releaseWindow recs) ffc rel) := rfl
  rw [hsum] at hr
  simp only [List.mem_append] at hr
  rcases hr with ((((h | h) | h) | h) | h)
  · unfold seriesRows at h
    split at h
    · exact absurd h (List.not_mem_nil r)
    · rw [List.mem_singleton] at h
      subst h
      exact ⟨rfl, fun _ => rfl, fun hfe => nomatch hfe⟩
  · unfold frontRows at h
    split at h
    · exact absurd h (List.not_mem_nil r)
    · rename_i p hp
      simp only [List.mem_cons, List.not_mem_nil, or_false] at h
      rcases h with h | h | h | h <;> subst h
      · exact ⟨rfl, fun hne => absurd rfl hne, fun _ => ⟨p, hp, rfl⟩⟩
      · exact ⟨rfl, fun _ => rfl, fun hfe => nomatch hfe⟩
      · exact ⟨rfl, fun _ => rfl, fun hfe => nomatch hfe⟩
      · exact ⟨rfl, fun _ => rfl, fun hfe => nomatch hfe⟩
  · unfold backRows at h
    split at h
    · exact absurd h (List.not_mem_nil r)
    · rename_i p hp
      simp only [List.mem_cons, List.not_mem_nil, or_false] at h
      rcases h with h | h | h | h <;> subst h <;>
        exact ⟨rfl, fun _ => rfl, fun hfe => nomatch hfe⟩
  · unfold seriesRows at h
    split at h
    · exact absurd h (List.not_mem_nil r)
    · rw [List.mem_singleton] at h
      subst h
      exact ⟨rfl, fun _ => rfl, fun hfe => nomatch hfe⟩
  · simp only [List.mem_map] at h
    obtain ⟨m, hm, rfl⟩ := h
    refine ⟨?_, ?_, ?_⟩
    · unfold compRow
      split <;> rfl
    · intro _
      unfold compRow
      split <;> rfl
    · intro hc
      rw [compRow_feature] at hc
      subst hc
      exact absurd hm (by decide)

/-- C6 counterexample: on `cexSeqKnee` the detector fixes the global FFC at
frame 0, but frame 0's front-knee angle is undefined and the first defined
entry of the filtered series is at frame 1, so the emitted
`Front Knee at FFC` row carries `FFC_Frame = 1 ≠ 0`: not every row carries
the globally detected FFC frame index. -/
theorem ffc_row_local_frame_cex :
    detect_front_foot_contact cexSeqKnee = .ok (0, 1) ∧
    extract_features_post_ffc cexSeqKnee = .ok (0, 1, recsTwoNaN, fklKnee, klTwoNaN) ∧
    calculate_biomechanical_summary cexSeqKnee =
      .ok (summaryRows 0 1 recsTwoNaN fklKnee klTwoNaN) ∧
    ∃ r ∈ summaryRows 0 1 recsTwoNaN fklKnee klTwoNaN,
      r.feature = .frontKneeAtFFC ∧ r.ffcFrame = 1 ∧ (1 : ℕ) ≠ 0 := by
  refine ⟨rfl, rfl, summary_of_extract_ok _ 0 1 _ _ _ rfl, ?_⟩
  obtain ⟨a, ha⟩ : ∃ a, kneeAngleVal = some a := by
    unfold kneeAngleVal
    simp only [calculate_angle]
    rw [if_neg (by norm_num)]
    exact ⟨_, rfl⟩
  have hvp : validPairs fklKnee = [(1, a)] := by
    simp [validPairs, fklKnee, ha]
  have hfront : analyze_front_knee_phases fklKnee =
      some ⟨a, a, a, 1, 1, 1, a - a⟩ := by
    unfold analyze_front_knee_phases
    rw [hvp]
    rfl
  have hfr : frontRows fklKnee 0 1 =
      [phaseRow .frontKneeAtFFC a "Front Foot Contact" 1 1,
       phaseRow .frontKneeMaxFlexion a "Maximum Flexion" 0 1,
       phaseRow .frontKneeMaxExtension a "Maximum Extension" 0 1,
       phaseRow .kneeAngleDeviation (a - a) "FFC to Max Extension" 0 1] := by
    unfold frontRows
    rw [hfront]
  refine ⟨phaseRow .frontKneeAtFFC a "Front Foot Contact" 1 1, ?_, rfl, rfl, by decide⟩
  have hsum : summaryRows 0 1 recsTwoNaN fklKnee klTwoNaN =
      seriesRows .elbowAngle Record.elbowAngle (releaseWindow recsTwoNaN) 0 1
        ++ frontRows fklKnee 0 1 ++ backRows klTwoNaN 0 1
        ++ seriesRows .backKneeAngle Record.backKneeAngle (releaseWindow recsTwoNaN) 0 1
        ++ comprehensive_features.map (compRow (releaseWindow recsTwoNaN) 0 1) := rfl
  rw [hsum, hfr]
  simp [List.mem_append]

/-- Witness for C6 (amended) on `cexSeqTwo`: its `Trunk Lean` row carries the
global release frame 1 and the global FFC frame 0. -/
theorem row_event_references_witness :
    calculate_biomechanical_summary cexSeqTwo =
      .ok (summaryRows 0 1 recsTwoNaN klTwoNaN klTwoNaN) ∧
    (compRow (releaseWindow recsTwoNaN) 0 1 .trunkLeanVal).releaseFrame = 1 ∧
    (compRow (releaseWindow recsTwoNaN) 0 1 .trunkLeanVal).ffcFrame = 0 := by
  have h := row_event_references cexSeqTwo 0 1 recsTwoNaN klTwoNaN klTwoNaN rfl
  have hsum : summaryRows 0 1 recsTwoNaN klTwoNaN klTwoNaN =
      seriesRows .elbowAngle Record.elbowAngle (releaseWindow recsTwoNaN) 0 1
        ++ frontRows klTwoNaN 0 1 ++ backRows klTwoNaN 0 1
        ++ seriesRows .backKneeAngle Record.backKneeAngle (releaseWindow recsTwoNaN) 0 1
        ++ comprehensive_features.map (compRow (releaseWindow recsTwoNaN) 0 1) := rfl
  have hmem : compRow (releaseWindow recsTwoNaN) 0 1 .trunkLeanVal ∈
      summaryRows 0 1 recsTwoNaN klTwoNaN klTwoNaN := by
    rw [hsum]
    simp only [List.mem_append]
    right
    exact List.mem_map_of_mem _ (by simp [comprehensive_features])
  have h2 := h.2 _ hmem
  exact ⟨h.1, h2.1, h2.2.1 (by decide)⟩

/-- C10: `analyze_bowling` never propagates an exception: whenever the
pipeline raises it returns the `status = "error"` dictionary carrying the
exception message, and otherwise the `status = "success"` dictionary carrying
the summary rows. -/
theorem analyze_bowling_never_raises (df : LandmarkSeq) :
    (∃ rows, calculate_biomechanical_summary df = .ok rows ∧
      analyze_bowling df = ⟨"success", "Video analyzed successfully", some rows⟩) ∨
    (∃ e, calculate_biomechanical_summary df = .error e ∧
      analyze_bowling df = ⟨"error", e, none⟩) := by
  cases h : calculate_biomechanical_summary df with
  | ok rows =>
    refine Or.inl ⟨rows, rfl, ?_⟩
    unfold analyze_bowling
    rw [h]
  | error e =>
    refine Or.inr ⟨e, rfl, ?_⟩
    unfold analyze_bowling
    rw [h]

end ProBowler
